import Mathlib

/-!
Verification of the realtime voice gateway of this repository.

The definitions below are a shallow embedding of the JavaScript/TypeScript
source under src/openai-voice (server.mjs and src/websocket-handler.ts).
JavaScript numbers are modelled as exact rationals, machine state as
explicit Lean structures, and the asynchronous callback flow of the
WebSocket code as a deterministic step function over event traces.
-/

namespace Voice

/-! ## Sentiment analyzer (server.mjs, analyzeSentiment) -/

/-- Keyword list from the source: stress keywords. -/
def stressKeywords : List String :=
  ["urgent", "critical", "immediate", "problem", "issue", "concern", "worried"]

/-- Keyword list from the source: positive keywords. -/
def positiveKeywords : List String :=
  ["good", "excellent", "great", "pleased", "satisfied", "approve"]

/-- Keyword list from the source: negative keywords. -/
def negativeKeywords : List String :=
  ["bad", "terrible", "concerned", "disappointed", "unacceptable", "reject"]

/-- Model of Math.min on exact rationals. -/
def jsMin (a b : ℚ) : ℚ := if a ≤ b then a else b

/-- Model of Math.max on exact rationals. -/
def jsMax (a b : ℚ) : ℚ := if a ≤ b then b else a

/-- Model of Math.abs on exact rationals. -/
def jsAbs (q : ℚ) : ℚ := if q < 0 then -q else q

theorem jsMin_eq_min (a b : ℚ) : jsMin a b = min a b := by
  rw [jsMin, min_def]

theorem jsMax_eq_max (a b : ℚ) : jsMax a b = max a b := by
  rw [jsMax, max_def]

theorem jsAbs_eq_abs (q : ℚ) : jsAbs q = |q| := by
  rw [jsAbs]
  rcases lt_or_le q 0 with h | h
  · simp [h, abs_of_neg h]
  · simp [not_lt.mpr h, abs_of_nonneg h]

/-- Result record of analyzeSentiment. -/
structure Sentiment where
  score : ℚ
  emotion : String
  confidence : ℚ
  indicators : List String
deriving DecidableEq, Repr

/-- Structural whitespace split over the character list; the accumulator
holds the current token in reverse. -/
def splitWsAux : List Char → List Char → List String
  | [], cur => [String.mk cur.reverse]
  | c :: cs, cur =>
      if c.isWhitespace then String.mk cur.reverse :: splitWsAux cs []
      else splitWsAux cs (c :: cur)

/-- The source computes `text.toLowerCase().split(/\s+/)`.  We model the
split with a character predicate; a run of separators in JavaScript yields
one boundary while here it yields empty tokens, and a leading separator
yields an empty token in both; empty tokens match no keyword and therefore
never change the result. -/
def tokenize (text : String) : List String :=
  splitWsAux (text.data.map Char.toLower) []

/-- Loop body of analyzeSentiment: three independent if-statements updating
the running score and the indicator list. -/
def wordStep (acc : ℚ × List String) (w : String) : ℚ × List String :=
  let a1 := if w ∈ stressKeywords then (acc.1 - 3/10, acc.2 ++ ["stress"]) else acc
  let a2 := if w ∈ positiveKeywords then (a1.1 + 4/10, a1.2 ++ ["positive"]) else a1
  if w ∈ negativeKeywords then (a2.1 - 4/10, a2.2 ++ ["negative"]) else a2

/-- Model of `[...new Set(indicators)]`: deduplication keeping the first
occurrence of each element. -/
def jsSetDedup (l : List String) : List String :=
  l.foldl (fun acc x => if x ∈ acc then acc else acc ++ [x]) []

/-- analyzeSentiment from server.mjs.  The emotion thresholds and the
confidence formula read the raw running sum; only the returned score is
clamped. -/
def analyzeSentiment (text : String) : Sentiment :=
  let p := (tokenize text).foldl wordStep (0, [])
  let score := p.1
  let indicators := p.2
  let emotion :=
    if score > 2/10 then "positive"
    else if score < -(2/10) then "negative"
    else if "stress" ∈ indicators then "stressed"
    else "neutral"
  { score := jsMax (-1) (jsMin 1 score)
    emotion := emotion
    confidence := jsMin (8/10) (jsAbs score + 2/10)
    indicators := jsSetDedup indicators }

/-! Specification-side definitions, phrased as claim C1 words the
per-word contributions: a sum over words of independent deltas. -/

/-- Contribution of a single word according to the claim wording. -/
def wordDelta (w : String) : ℚ :=
  (if w ∈ stressKeywords then -(3/10) else 0) +
  (if w ∈ positiveKeywords then 4/10 else 0) +
  (if w ∈ negativeKeywords then -(4/10) else 0)

/-- The unclamped sentiment sum of a text, per the claim wording. -/
def sentimentSum (text : String) : ℚ :=
  ((tokenize text).map wordDelta).sum

/-- Whether some word of the text fired a stress indicator. -/
def stressFired (text : String) : Bool :=
  (tokenize text).any (fun w => decide (w ∈ stressKeywords))

/-- Emotion classification per the claim wording. -/
def claimEmotion (text : String) : String :=
  if sentimentSum text > 2/10 then "positive"
  else if sentimentSum text < -(2/10) then "negative"
  else if stressFired text then "stressed"
  else "neutral"

theorem wordStep_fst (acc : ℚ × List String) (w : String) :
    (wordStep acc w).1 = acc.1 + wordDelta w := by
  unfold wordStep wordDelta
  split_ifs <;> simp <;> ring

theorem foldl_wordStep_fst (ws : List String) (acc : ℚ × List String) :
    (ws.foldl wordStep acc).1 = acc.1 + (ws.map wordDelta).sum := by
  induction ws generalizing acc with
  | nil => simp
  | cons w ws ih =>
    simp only [List.foldl_cons, List.map_cons, List.sum_cons]
    rw [ih, wordStep_fst]
    ring

theorem wordStep_stress_mem (acc : ℚ × List String) (w : String) :
    "stress" ∈ (wordStep acc w).2 ↔ ("stress" ∈ acc.2 ∨ w ∈ stressKeywords) := by
  unfold wordStep
  split_ifs with h1 h2 h3 <;> simp_all

theorem foldl_wordStep_stress (ws : List String) (acc : ℚ × List String) :
    "stress" ∈ (ws.foldl wordStep acc).2 ↔
      ("stress" ∈ acc.2 ∨ ∃ w ∈ ws, w ∈ stressKeywords) := by
  induction ws generalizing acc with
  | nil => simp
  | cons w ws ih =>
    simp only [List.foldl_cons, List.mem_cons]
    rw [ih, wordStep_stress_mem]
    constructor
    · rintro ((h | h) | ⟨w', hw', hs⟩)
      · exact Or.inl h
      · exact Or.inr ⟨w, Or.inl rfl, h⟩
      · exact Or.inr ⟨w', Or.inr hw', hs⟩
    · rintro (h | ⟨w', (rfl | hw'), hs⟩)
      · exact Or.inl (Or.inl h)
      · exact Or.inl (Or.inr hs)
      · exact Or.inr ⟨w', hw', hs⟩

theorem stressFired_iff (text : String) :
    stressFired text = true ↔ ∃ w ∈ tokenize text, w ∈ stressKeywords := by
  simp [stressFired]

/-- C1: for every input text the analyzer lower-cases and splits on
whitespace, sums per-word contributions (stress -0.3, positive +0.4,
negative -0.4), returns the sum clamped to [-1, 1] as score, classifies the
emotion by the thresholds 0.2 and -0.2 on the unclamped sum with a stressed
fallback when a stress indicator fired, and returns
confidence = min 0.8 (abs sum + 0.2); score stays in [-1, 1] and confidence
in [0, 0.8]. -/
theorem analyzeSentiment_spec (text : String) :
    (analyzeSentiment text).score = max (-1) (min 1 (sentimentSum text)) ∧
    (analyzeSentiment text).emotion = claimEmotion text ∧
    (analyzeSentiment text).confidence = min (8/10) (|sentimentSum text| + 2/10) ∧
    -1 ≤ (analyzeSentiment text).score ∧ (analyzeSentiment text).score ≤ 1 ∧
    0 ≤ (analyzeSentiment text).confidence ∧
    (analyzeSentiment text).confidence ≤ 8/10 := by
  have hsum : ((tokenize text).foldl wordStep (0, [])).1 = sentimentSum text := by
    rw [foldl_wordStep_fst]
    simp [sentimentSum]
  have hstr : ("stress" ∈ ((tokenize text).foldl wordStep (0, [])).2) ↔
      stressFired text = true := by
    rw [foldl_wordStep_stress, stressFired_iff]
    simp
  refine ⟨?_, ?_, ?_, ?_, ?_, ?_, ?_⟩ <;>
    simp only [analyzeSentiment, claimEmotion, jsMin_eq_min, jsMax_eq_max,
      jsAbs_eq_abs, hsum, hstr]
  · exact le_max_left _ _
  · exact max_le (by norm_num) (min_le_left _ _)
  · exact le_min (by norm_num) (by positivity)
  · exact min_le_left _ _

/-- C2 counterexample: on the text "urgent issue, please approve" the token
containing the comma matches no keyword, so the score is 0.1 (not -0.2) and
the emotion is stressed (not neutral). -/
theorem scenarioA_counterexample :
    (analyzeSentiment "urgent issue, please approve").score = 1/10 ∧
    (analyzeSentiment "urgent issue, please approve").emotion = "stressed" ∧
    ¬((analyzeSentiment "urgent issue, please approve").score = -(2/10) ∧
      (analyzeSentiment "urgent issue, please approve").emotion = "neutral") := by
  have htok : tokenize "urgent issue, please approve" =
      ["urgent", "issue,", "please", "approve"] := rfl
  simp only [analyzeSentiment, htok, List.foldl_cons, List.foldl_nil]
  norm_num +decide [wordStep, jsMin, jsMax, jsAbs, jsSetDedup, stressKeywords,
    positiveKeywords, negativeKeywords]

/-- C2 amended: for the input "urgent issue, please approve", whitespace
splitting keeps the comma attached to the second token, so only the stress
keyword urgent and the positive keyword approve match, giving
score = -0.3 + 0.4 = 0.1, emotion stressed (a stress indicator fired and no
threshold was crossed), confidence 0.3 and indicators [stress, positive]. -/
theorem scenarioA_amended :
    analyzeSentiment "urgent issue, please approve" =
      { score := 1/10, emotion := "stressed", confidence := 3/10,
        indicators := ["stress", "positive"] } := by
  have htok : tokenize "urgent issue, please approve" =
      ["urgent", "issue,", "please", "approve"] := rfl
  simp only [analyzeSentiment, htok, List.foldl_cons, List.foldl_nil]
  norm_num +decide [wordStep, jsMin, jsMax, jsAbs, jsSetDedup, stressKeywords,
    positiveKeywords, negativeKeywords, Sentiment.mk.injEq]

/-! ## Conversation state store (server.mjs, /api/conversation endpoints)

Timestamps produced by `new Date().toISOString()` are passed in as opaque
strings.  JSON payload fields that the handlers default with `|| ...` are
modelled as optional fields with the same defaults. -/

/-- Entry of session.conversationEvents; the payload carried in event.data
is kept opaque (for focus_change events it is read as the new focus). -/
structure ConvEvent where
  timestamp : String
  type : String
  data : String
deriving DecidableEq, Repr

/-- Entry of session.sentimentHistory. -/
structure SentimentSample where
  timestamp : String
  score : ℚ
  emotion : String
  confidence : ℚ
  indicators : List String
deriving DecidableEq, Repr

/-- Session record created by POST /api/conversation/start. -/
structure Session where
  id : String
  startTime : String
  backlogItems : List String
  completedItems : List String
  currentFocus : String
  sentimentHistory : List SentimentSample
  interruptionCount : ℕ
  engagementLevel : String
  conversationEvents : List ConvEvent
deriving DecidableEq, Repr

/-- The fresh session built by the start handler; backlogItems comes from
the loaded organizational context (ceo_daily_priorities), kept as opaque
item identifiers. -/
def startSession (sessionId now : String) (ctxBacklog : List String) : Session :=
  { id := sessionId
    startTime := now
    backlogItems := ctxBacklog
    completedItems := []
    currentFocus := "Daily Briefing"
    sentimentHistory := []
    interruptionCount := 0
    engagementLevel := "baseline"
    conversationEvents := [] }

/-- Request field `event` of POST /api/conversation/update. -/
structure EventPayload where
  type : String
  data : String
deriving DecidableEq, Repr

/-- Request field `sentiment` of POST /api/conversation/update; missing
members get the defaults of the handler (`|| 0`, `|| neutral`, `|| 0.5`,
`|| []`). -/
structure SentimentPayload where
  score : Option ℚ
  emotion : Option String
  confidence : Option ℚ
  indicators : Option (List String)
deriving DecidableEq, Repr

/-- Request field `backlogProgress`; `completed` is defaulted to [] by the
handler. -/
structure BacklogProgressPayload where
  completed : Option (List String)
deriving DecidableEq, Repr

/-- Body of POST /api/conversation/update (the transcript field is unused
by the handler). -/
structure UpdateRequest where
  event : Option EventPayload
  sentiment : Option SentimentPayload
  backlogProgress : Option BacklogProgressPayload
deriving DecidableEq, Repr

/-- Event branch of the update handler. -/
def applyEvent (s : Session) (now : String) (e : EventPayload) : Session :=
  let s1 := { s with conversationEvents :=
                s.conversationEvents ++ [⟨now, e.type, e.data⟩] }
  let s2 := if e.type = "interruption"
            then { s1 with interruptionCount := s1.interruptionCount + 1 }
            else s1
  if e.type = "focus_change" then { s2 with currentFocus := e.data } else s2

/-- The sentiment sample pushed by the update handler. -/
def mkSample (now : String) (p : SentimentPayload) : SentimentSample :=
  { timestamp := now
    score := p.score.getD 0
    emotion := p.emotion.getD "neutral"
    confidence := p.confidence.getD (1/2)
    indicators := p.indicators.getD [] }

/-- Model of Array.prototype.slice with a negative index: the last n
elements, or the whole list when it is shorter. -/
def lastN (n : ℕ) (l : List α) : List α := l.drop (l.length - n)

/-- Mean of the scores of a sample window. -/
def meanScore (l : List SentimentSample) : ℚ :=
  (l.map (·.score)).sum / l.length

/-- Engagement classification thresholds of the update handler. -/
def engagementFromAvg (avg : ℚ) : String :=
  if avg > 3/10 then "high" else if avg < -(2/10) then "stressed" else "active"

/-- Sentiment branch of the update handler: push a sample, then recompute
engagement from the mean score of the last 3 samples. -/
def applySentiment (s : Session) (now : String) (p : SentimentPayload) : Session :=
  let hist := s.sentimentHistory ++ [mkSample now p]
  { s with sentimentHistory := hist
           engagementLevel := engagementFromAvg (meanScore (lastN 3 hist)) }

/-- Backlog branch of the update handler: completedItems is replaced
wholesale by the client-supplied list. -/
def applyBacklog (s : Session) (b : BacklogProgressPayload) : Session :=
  { s with completedItems := b.completed.getD [] }

/-- The whole state change of POST /api/conversation/update on one
session. -/
def applyUpdate (s : Session) (now : String) (r : UpdateRequest) : Session :=
  let s1 := match r.event with | some e => applyEvent s now e | none => s
  let s2 := match r.sentiment with | some p => applySentiment s1 now p | none => s1
  match r.backlogProgress with | some b => applyBacklog s2 b | none => s2

/-- The conversationSessions map, as an association list in insertion
order. -/
def Registry := List (String × Session)
deriving DecidableEq, Repr

/-- Map.get: the session bound to a key. -/
def findSession (reg : Registry) (sid : String) : Option Session :=
  match reg with
  | [] => none
  | (k, s) :: rest => if k = sid then some s else findSession rest sid

/-- Map.set: replace an existing binding or append a new one. -/
def mapSet (reg : Registry) (sid : String) (s : Session) : Registry :=
  match reg with
  | [] => [(sid, s)]
  | (k, s0) :: rest =>
      if k = sid then (sid, s) :: rest else (k, s0) :: mapSet rest sid s

/-- Structured error reply of the handlers. -/
structure ErrorResponse where
  status : ℕ
  error : String
deriving DecidableEq, Repr

/-- Reply body of POST /api/conversation/update. -/
structure UpdateResponse where
  currentFocus : String
  engagementLevel : String
  backlogProgress : String
  sentimentTrend : String
  interruptionCount : ℕ
deriving DecidableEq, Repr

/-- Reply built by the update handler from the updated session. -/
def mkUpdateResponse (s : Session) : UpdateResponse :=
  { currentFocus := s.currentFocus
    engagementLevel := s.engagementLevel
    backlogProgress :=
      toString s.completedItems.length ++ "/" ++ toString s.backlogItems.length
    sentimentTrend := ((lastN 1 s.sentimentHistory).head?.map (·.emotion)).getD "neutral"
    interruptionCount := s.interruptionCount }

/-- POST /api/conversation/start: mint a session and insert it. -/
def conversationStart (reg : Registry) (sid now : String) (ctxBacklog : List String) :
    Registry × String :=
  (mapSet reg sid (startSession sid now ctxBacklog), sid)

/-- POST /api/conversation/update: a missing session is a 404 and leaves
the registry untouched; otherwise the session is updated in place and a
snapshot is returned. -/
def conversationUpdate (reg : Registry) (now sid : String) (r : UpdateRequest) :
    Registry × Except ErrorResponse UpdateResponse :=
  match findSession reg sid with
  | none => (reg, .error ⟨404, "Session not found"⟩)
  | some s =>
      let s1 := applyUpdate s now r
      (mapSet reg sid s1, .ok (mkUpdateResponse s1))

/-- JavaScript number results that the summary endpoint can produce from
divisions: a finite value, NaN, or a signed infinity. -/
inductive JSNum where
  | num (q : ℚ)
  | nan
  | posInf
  | negInf
deriving DecidableEq, Repr

/-- JavaScript division, where x/0 is NaN or a signed infinity. -/
def jsDiv (a b : ℚ) : JSNum :=
  if b = 0 then (if a = 0 then .nan else if a > 0 then .posInf else .negInf)
  else .num (a / b)

/-- Multiplication of a JavaScript division result by a positive scale
(the summary multiplies by 100). -/
def jsMulPos (x : JSNum) (c : ℚ) : JSNum :=
  match x with
  | .num a => .num (a * c)
  | x => x

/-- Math.round: half-up rounding toward positive infinity on finite
values; NaN and infinities pass through. -/
def jsRound : JSNum → JSNum
  | .num q => .num ((⌊q + 1/2⌋ : ℤ) : ℚ)
  | x => x

/-- The `|| 0` coercion applied to averageScore: NaN (and 0) are falsy. -/
def jsOrZero : JSNum → JSNum
  | .nan => .num 0
  | .num q => if q = 0 then .num 0 else .num q
  | x => x

/-- backlogProgress object of the summary reply. -/
structure BacklogSummary where
  completed : ℕ
  total : ℕ
  percentage : JSNum
deriving DecidableEq, Repr

/-- sentiment object of the summary reply. -/
structure SentimentSummary where
  current : String
  trend : List ℚ
  averageScore : JSNum
deriving DecidableEq, Repr

/-- Reply body of GET /api/analytics/summary/:sessionId.  The duration
field is wall-clock dependent and omitted; engagement.level,
engagement.interruptionCount and engagement.focusArea are flattened. -/
structure SummaryResponse where
  sessionId : String
  backlogProgress : BacklogSummary
  sentiment : SentimentSummary
  engagementLevel : String
  interruptionCount : ℕ
  focusArea : String
deriving DecidableEq, Repr

/-- GET /api/analytics/summary/:sessionId. -/
def getSummary (reg : Registry) (sid : String) :
    Except ErrorResponse SummaryResponse :=
  match findSession reg sid with
  | none => .error ⟨404, "Session not found"⟩
  | some s =>
      let recent := lastN 5 s.sentimentHistory
      .ok
        { sessionId := s.id
          backlogProgress :=
            { completed := s.completedItems.length
              total := s.backlogItems.length
              percentage :=
                jsRound (jsMulPos
                  (jsDiv s.completedItems.length s.backlogItems.length) 100) }
          sentiment :=
            { current := (recent.getLast?.map (·.emotion)).getD "neutral"
              trend := recent.map (·.score)
              averageScore :=
                jsOrZero (jsDiv (recent.map (·.score)).sum recent.length) }
          engagementLevel := s.engagementLevel
          interruptionCount := s.interruptionCount
          focusArea := s.currentFocus }

/-- Sessions producible by the start handler followed by any sequence of
update operations. -/
inductive ReachableSession : Session → Prop where
  | start (sid now : String) (ctxBacklog : List String) :
      ReachableSession (startSession sid now ctxBacklog)
  | update (s : Session) (now : String) (r : UpdateRequest) :
      ReachableSession s → ReachableSession (applyUpdate s now r)

theorem applyEvent_sentimentHistory (s : Session) (now : String) (e : EventPayload) :
    (applyEvent s now e).sentimentHistory = s.sentimentHistory := by
  unfold applyEvent
  split_ifs <;> rfl

theorem applyEvent_engagementLevel (s : Session) (now : String) (e : EventPayload) :
    (applyEvent s now e).engagementLevel = s.engagementLevel := by
  unfold applyEvent
  split_ifs <;> rfl

theorem applyEvent_completedItems (s : Session) (now : String) (e : EventPayload) :
    (applyEvent s now e).completedItems = s.completedItems := by
  unfold applyEvent
  split_ifs <;> rfl

theorem applyEvent_backlogItems (s : Session) (now : String) (e : EventPayload) :
    (applyEvent s now e).backlogItems = s.backlogItems := by
  unfold applyEvent
  split_ifs <;> rfl

theorem applyUpdate_backlogItems (s : Session) (now : String) (r : UpdateRequest) :
    (applyUpdate s now r).backlogItems = s.backlogItems := by
  unfold applyUpdate
  rcases r.event with _ | e <;> rcases r.sentiment with _ | p <;>
    rcases r.backlogProgress with _ | b <;>
    simp [applySentiment, applyBacklog, applyEvent_backlogItems]

theorem applyUpdate_engagement_of_sentiment (s : Session) (now : String)
    (r : UpdateRequest) (p : SentimentPayload) (h : r.sentiment = some p) :
    (applyUpdate s now r).engagementLevel =
      engagementFromAvg (meanScore (lastN 3
        (s.sentimentHistory ++ [mkSample now p]))) := by
  unfold applyUpdate
  rw [h]
  rcases r.event with _ | e <;> rcases r.backlogProgress with _ | b <;>
    simp [applySentiment, applyBacklog, applyEvent_sentimentHistory]

theorem applyUpdate_no_sentiment (s : Session) (now : String)
    (r : UpdateRequest) (h : r.sentiment = none) :
    (applyUpdate s now r).sentimentHistory = s.sentimentHistory ∧
    (applyUpdate s now r).engagementLevel = s.engagementLevel := by
  unfold applyUpdate
  rw [h]
  rcases r.event with _ | e <;> rcases r.backlogProgress with _ | b <;>
    simp [applyBacklog, applyEvent_sentimentHistory, applyEvent_engagementLevel]

theorem applyUpdate_sentimentHistory_of_sentiment (s : Session) (now : String)
    (r : UpdateRequest) (p : SentimentPayload) (h : r.sentiment = some p) :
    (applyUpdate s now r).sentimentHistory =
      s.sentimentHistory ++ [mkSample now p] := by
  unfold applyUpdate
  rw [h]
  rcases r.event with _ | e <;> rcases r.backlogProgress with _ | b <;>
    simp [applySentiment, applyBacklog, applyEvent_sentimentHistory]

theorem baseline_of_no_samples (s : Session) (h : ReachableSession s) :
    s.sentimentHistory = [] → s.engagementLevel = "baseline" := by
  induction h with
  | start sid now ctx => intro _; rfl
  | update s now r _ ih =>
      intro hh
      rcases hsent : r.sentiment with _ | p
      · obtain ⟨h1, h2⟩ := applyUpdate_no_sentiment s now r hsent
        rw [h2]
        exact ih (h1 ▸ hh)
      · rw [applyUpdate_sentimentHistory_of_sentiment s now r p hsent] at hh
        simp at hh

theorem findSession_mapSet (reg : Registry) (sid : String) (s : Session) :
    findSession (mapSet reg sid s) sid = some s := by
  induction reg with
  | nil => simp [mapSet, findSession]
  | cons kv rest ih =>
      obtain ⟨k, s0⟩ := kv
      by_cases hk : k = sid <;> simp [mapSet, findSession, hk, ih]

/-- C3: engagement is recomputed on every sentiment-carrying update as the
threshold classification of the mean score of the last 3 samples of the
appended history; a reachable session with no samples still has the
baseline level; and three appends with scores 0.5, 0.4, 0.2 end on high. -/
theorem engagement_derivation :
    (∀ (reg : Registry) (now sid : String) (r : UpdateRequest) (s : Session)
        (p : SentimentPayload),
        findSession reg sid = some s → r.sentiment = some p →
        ∃ resp, (conversationUpdate reg now sid r).2 = .ok resp ∧
          resp.engagementLevel = engagementFromAvg (meanScore (lastN 3
            (s.sentimentHistory ++ [mkSample now p])))) ∧
    (∀ s : Session, ReachableSession s → s.sentimentHistory = [] →
        s.engagementLevel = "baseline") ∧
    (applyUpdate (applyUpdate (applyUpdate (startSession "s1" "t0" [])
        "t1" { event := none, sentiment := some ⟨some (5/10), none, none, none⟩,
               backlogProgress := none })
        "t2" { event := none, sentiment := some ⟨some (4/10), none, none, none⟩,
               backlogProgress := none })
        "t3" { event := none, sentiment := some ⟨some (2/10), none, none, none⟩,
               backlogProgress := none }).engagementLevel = "high" := by
  refine ⟨?_, baseline_of_no_samples, ?_⟩
  · intro reg now sid r s p hfind hsent
    refine ⟨mkUpdateResponse (applyUpdate s now r), ?_, ?_⟩
    · simp [conversationUpdate, hfind]
    · exact applyUpdate_engagement_of_sentiment s now r p hsent
  · norm_num [applyUpdate, applySentiment, startSession, mkSample, lastN,
      meanScore, engagementFromAvg]

/-- C3 witness: the symbolic conjuncts instantiated on one fresh session
and one sentiment append. -/
theorem engagement_derivation_witness :
    (∃ resp, (conversationUpdate [("s1", startSession "s1" "t0" [])] "t1" "s1"
        { event := none, sentiment := some ⟨some (5/10), none, none, none⟩,
          backlogProgress := none }).2 = .ok resp ∧
       resp.engagementLevel = engagementFromAvg (meanScore (lastN 3
         ((startSession "s1" "t0" []).sentimentHistory ++
           [mkSample "t1" ⟨some (5/10), none, none, none⟩])))) ∧
    (startSession "s1" "t0" []).engagementLevel = "baseline" :=
  ⟨engagement_derivation.1 [("s1", startSession "s1" "t0" [])] "t1" "s1"
      _ _ _ rfl rfl,
   engagement_derivation.2.1 _ (ReachableSession.start "s1" "t0" []) rfl⟩

/-- Session obtained by starting with agenda [a] and then posting a
backlogProgress update whose completed list is [z]. -/
def badUpdateSession : Session :=
  applyUpdate (startSession "s1" "t0" ["a"]) "t1"
    { event := none, sentiment := none, backlogProgress := some ⟨some ["z"]⟩ }

/-- C4 counterexample: an update carrying backlogProgress stores the
client-supplied completed list verbatim, so an item outside the agenda
breaks the subset invariant. -/
theorem backlog_subset_counterexample :
    "z" ∈ badUpdateSession.completedItems ∧
    "z" ∉ badUpdateSession.backlogItems ∧
    ¬ badUpdateSession.completedItems ⊆ badUpdateSession.backlogItems := by
  have h1 : badUpdateSession.completedItems = ["z"] := rfl
  have h2 : badUpdateSession.backlogItems = ["a"] := rfl
  refine ⟨by simp [h1], by simp +decide [h2], fun hsub => ?_⟩
  have hz := hsub (show "z" ∈ badUpdateSession.completedItems by simp [h1])
  rw [h2] at hz
  simp +decide at hz

/-- C4 amended: the fresh session satisfies completedItems as a subset of
agendaItems, the agenda itself is never mutated, and every update whose
backlogProgress payload (if any) stays inside the agenda preserves the
subset invariant; an update with an out-of-agenda completed list is the
only way to break it. -/
theorem backlog_subset_preservation :
    (∀ (sid now : String) (ctx : List String),
        (startSession sid now ctx).completedItems ⊆
          (startSession sid now ctx).backlogItems) ∧
    (∀ (s : Session) (now : String) (r : UpdateRequest),
        (applyUpdate s now r).backlogItems = s.backlogItems) ∧
    (∀ (s : Session) (now : String) (r : UpdateRequest),
        s.completedItems ⊆ s.backlogItems →
        (∀ b, r.backlogProgress = some b → b.completed.getD [] ⊆ s.backlogItems) →
        (applyUpdate s now r).completedItems ⊆ (applyUpdate s now r).backlogItems) := by
  refine ⟨fun sid now ctx => List.nil_subset _,
    fun s now r => applyUpdate_backlogItems s now r, ?_⟩
  intro s now r hsub hbp
  rw [applyUpdate_backlogItems]
  rcases hb : r.backlogProgress with _ | b
  · have hc : (applyUpdate s now r).completedItems = s.completedItems := by
      unfold applyUpdate
      rw [hb]
      rcases r.event with _ | e <;> rcases r.sentiment with _ | p <;>
        simp [applySentiment, applyEvent_completedItems]
    rw [hc]
    exact hsub
  · have hc : (applyUpdate s now r).completedItems = b.completed.getD [] := by
      unfold applyUpdate
      rw [hb]
      rcases r.event with _ | e <;> rcases r.sentiment with _ | p <;>
        simp [applySentiment, applyBacklog, applyEvent_completedItems]
    rw [hc]
    exact hbp b hb

/-- C4 witness: preservation applied to a concrete in-agenda update. -/
theorem backlog_subset_preservation_witness :
    (applyUpdate (startSession "s1" "t0" ["a"]) "t1"
      { event := none, sentiment := none,
        backlogProgress := some ⟨some ["a"]⟩ }).completedItems ⊆
    (applyUpdate (startSession "s1" "t0" ["a"]) "t1"
      { event := none, sentiment := none,
        backlogProgress := some ⟨some ["a"]⟩ }).backlogItems :=
  backlog_subset_preservation.2.2 (startSession "s1" "t0" ["a"]) "t1"
    { event := none, sentiment := none, backlogProgress := some ⟨some ["a"]⟩ }
    (List.nil_subset _)
    (fun b hb => by cases hb; exact List.Subset.refl _)

/-- C5: updating an unknown session id returns the structured 404 error
and leaves the registry exactly as it was; the summary query behaves the
same way. -/
theorem update_unknown_session (reg : Registry) (now sid : String)
    (r : UpdateRequest) (h : findSession reg sid = none) :
    conversationUpdate reg now sid r = (reg, .error ⟨404, "Session not found"⟩) ∧
    getSummary reg sid = .error ⟨404, "Session not found"⟩ := by
  constructor <;> simp [conversationUpdate, getSummary, h]

/-- C5 witness: the empty registry rejects an update for a missing id. -/
theorem update_unknown_session_witness :
    conversationUpdate [] "t0" "missing" ⟨none, none, none⟩ =
      ([], .error ⟨404, "Session not found"⟩) ∧
    getSummary [] "missing" = .error ⟨404, "Session not found"⟩ :=
  update_unknown_session [] "t0" "missing" ⟨none, none, none⟩ rfl

/-- C6: a session started with a 5-item agenda stores those items, starts
with no completed items and no sentiment samples, and an immediate summary
reports 0 of 5 items completed (0 percent) at the baseline engagement
level. -/
theorem scenarioB_summary (reg : Registry) (sid now : String)
    (agenda : List String) (hlen : agenda.length = 5) :
    (startSession sid now agenda).backlogItems = agenda ∧
    (startSession sid now agenda).completedItems = [] ∧
    (startSession sid now agenda).sentimentHistory = [] ∧
    getSummary (conversationStart reg sid now agenda).1 sid = .ok
      { sessionId := sid
        backlogProgress := { completed := 0, total := 5, percentage := .num 0 }
        sentiment := { current := "neutral", trend := [], averageScore := .num 0 }
        engagementLevel := "baseline"
        interruptionCount := 0
        focusArea := "Daily Briefing" } := by
  refine ⟨rfl, rfl, rfl, ?_⟩
  have hfind : findSession (conversationStart reg sid now agenda).1 sid =
      some (startSession sid now agenda) := findSession_mapSet reg sid _
  simp [getSummary, hfind, startSession, lastN, jsDiv, jsMulPos, jsRound,
    jsOrZero, hlen]
  norm_num

/-- C6 witness: the scenario at a concrete five-item agenda. -/
theorem scenarioB_summary_witness :
    getSummary (conversationStart [] "s1" "t0"
        ["p1", "p2", "p3", "p4", "p5"]).1 "s1" = .ok
      { sessionId := "s1"
        backlogProgress := { completed := 0, total := 5, percentage := .num 0 }
        sentiment := { current := "neutral", trend := [], averageScore := .num 0 }
        engagementLevel := "baseline"
        interruptionCount := 0
        focusArea := "Daily Briefing" } :=
  (scenarioB_summary [] "s1" "t0" ["p1", "p2", "p3", "p4", "p5"] rfl).2.2.2

/-- C10 amended: for a session whose agenda list is empty the summary
still succeeds; when the completed list is also empty the unguarded zero
division makes percentage NaN, and with no sentiment samples the average
score is coerced to 0.  (With a non-empty completed list the same division
yields Infinity instead of NaN, see the counterexample.) -/
theorem summary_empty_agenda (reg : Registry) (sid : String) (s : Session)
    (h : findSession reg sid = some s) (hagenda : s.backlogItems = []) :
    ∃ resp, getSummary reg sid = .ok resp ∧
      (s.completedItems = [] → resp.backlogProgress.percentage = .nan) ∧
      (s.sentimentHistory = [] → resp.sentiment.averageScore = .num 0) := by
  refine ⟨{ sessionId := s.id
            backlogProgress :=
              { completed := s.completedItems.length
                total := s.backlogItems.length
                percentage := jsRound (jsMulPos
                  (jsDiv s.completedItems.length s.backlogItems.length) 100) }
            sentiment :=
              { current := ((lastN 5 s.sentimentHistory).getLast?.map
                  (·.emotion)).getD "neutral"
                trend := (lastN 5 s.sentimentHistory).map (·.score)
                averageScore := jsOrZero (jsDiv
                  ((lastN 5 s.sentimentHistory).map (·.score)).sum
                  (lastN 5 s.sentimentHistory).length) }
            engagementLevel := s.engagementLevel
            interruptionCount := s.interruptionCount
            focusArea := s.currentFocus }, ?_, ?_, ?_⟩
  · simp [getSummary, h]
  · intro hc
    simp [hagenda, hc, jsDiv, jsMulPos, jsRound]
  · intro hh
    simp [hh, lastN, jsDiv, jsOrZero]

/-- C10 witness: a freshly started session with an empty agenda. -/
theorem summary_empty_agenda_witness :
    ∃ resp, getSummary [("s1", startSession "s1" "t0" [])] "s1" = .ok resp ∧
      ((startSession "s1" "t0" []).completedItems = [] →
        resp.backlogProgress.percentage = .nan) ∧
      ((startSession "s1" "t0" []).sentimentHistory = [] →
        resp.sentiment.averageScore = .num 0) :=
  summary_empty_agenda [("s1", startSession "s1" "t0" [])] "s1"
    (startSession "s1" "t0" []) rfl rfl

/-- Registry holding one session with an empty agenda whose completed list
was set to [x] by a backlogProgress update. -/
def emptyAgendaReg : Registry :=
  (conversationUpdate (conversationStart [] "s1" "t0" []).1 "t1" "s1"
    { event := none, sentiment := none, backlogProgress := some ⟨some ["x"]⟩ }).1

/-- C10 counterexample: a reachable session with an empty agenda and a
non-empty completed list gets percentage Infinity, not NaN. -/
theorem summary_empty_agenda_counterexample :
    (findSession emptyAgendaReg "s1").map (fun s => s.backlogItems) = some [] ∧
    ∃ resp, getSummary emptyAgendaReg "s1" = .ok resp ∧
      resp.backlogProgress.percentage = .posInf ∧
      resp.backlogProgress.percentage ≠ .nan := by
  have hsum : getSummary emptyAgendaReg "s1" = .ok
      { sessionId := "s1"
        backlogProgress := { completed := 1, total := 0, percentage := .posInf }
        sentiment := { current := "neutral", trend := [], averageScore := .num 0 }
        engagementLevel := "baseline"
        interruptionCount := 0
        focusArea := "Daily Briefing" } := by
    simp +decide [emptyAgendaReg, conversationStart, conversationUpdate, mapSet,
      findSession, startSession, applyUpdate, applyBacklog, getSummary, lastN,
      jsDiv, jsMulPos, jsRound, jsOrZero]
  refine ⟨?_, _, hsum, rfl, by simp⟩
  simp +decide [emptyAgendaReg, conversationStart, conversationUpdate, mapSet,
    findSession, startSession, applyUpdate, applyBacklog]

/-! ## Startup and credential minting (server.mjs, OPENAI_API_KEY check and
POST /api/ephemeral-token) -/

/-- Observable actions of the module top level: on a missing key the
source only calls console.warn and then unconditionally starts
listening. -/
inductive StartupAction where
  | warnMissingKey
  | listen (port : ℕ)
deriving DecidableEq, Repr

/-- The startup sequence of server.mjs as a function of the resolved
OPENAI_API_KEY value (process.env lookup with the VITE_ fallback already
applied) and the resolved port. -/
def startupActions (key : Option String) (port : ℕ) : List StartupAction :=
  (if key.isNone then [StartupAction.warnMissingKey] else []) ++
    [StartupAction.listen port]

/-- Body of POST /api/ephemeral-token. -/
structure TokenRequest where
  model : Option String
deriving DecidableEq, Repr

/-- Outcome of the ephemeral-token handler before any network reply: either
the outbound upstream request it issues (bearer secret and session model),
or an immediate error response. -/
inductive EphemeralTokenResult where
  | upstreamCall (bearer : String) (model : String)
  | errorResponse (status : ℕ) (msg : String)
deriving DecidableEq, Repr

/-- POST /api/ephemeral-token: the model falls back to the pinned realtime
model; a missing server key is answered with a per-request 500. -/
def ephemeralTokenHandler (key : Option String) (req : TokenRequest) :
    EphemeralTokenResult :=
  let model := req.model.getD "gpt-4o-realtime-preview-2024-12-17"
  match key with
  | none => .errorResponse 500 "OPENAI_API_KEY not set on server"
  | some k => .upstreamCall k model

/-- C7 counterexample: with no server secret the process still reaches the
listen step (it accepts connections), and the missing secret is surfaced
as a per-request 500 from the credential-minting handler, contradicting
both halves of the claim. -/
theorem missing_key_counterexample :
    StartupAction.listen 8787 ∈ startupActions none 8787 ∧
    ephemeralTokenHandler none ⟨none⟩ =
      .errorResponse 500 "OPENAI_API_KEY not set on server" := by
  constructor
  · simp [startupActions]
  · rfl

/-- C7 amended: a missing server secret produces only a startup warning,
the server still listens on its port, and every credential-minting request
is then answered with the 500 error; with a secret present the handler
issues the upstream call with that secret and the requested or default
model. -/
theorem missing_key_behavior (key : Option String) (port : ℕ)
    (req : TokenRequest) (h : key = none) :
    StartupAction.warnMissingKey ∈ startupActions key port ∧
    StartupAction.listen port ∈ startupActions key port ∧
    ephemeralTokenHandler key req =
      .errorResponse 500 "OPENAI_API_KEY not set on server" := by
  subst h
  refine ⟨by simp [startupActions], by simp [startupActions], rfl⟩

/-- C7 amended witness: the missing-key behavior at the default port. -/
theorem missing_key_behavior_witness :
    StartupAction.warnMissingKey ∈ startupActions none 8787 ∧
    StartupAction.listen 8787 ∈ startupActions none 8787 ∧
    ephemeralTokenHandler none ⟨none⟩ =
      .errorResponse 500 "OPENAI_API_KEY not set on server" :=
  missing_key_behavior none 8787 ⟨none⟩ rfl

/-! ## Client reconnect policy (src/websocket-handler.ts)

The callback flow onclose / attemptReconnect / connect is modelled as a
deterministic step over close events; each unclean close of the active
socket drives at most one reconnect attempt whose outcome (the next
connect resolving or rejecting) is the event parameter.  The
onStatusChange messages are modelled as a closed message alphabet. -/

/-- The distinct onStatusChange message strings of the handler;
the reconnecting message interpolates the counter values. -/
inductive WSMessage where
  | connectionClosed
  | reconnecting (attempt maxAttempts : ℕ)
  | connectingToWS
  | connectedViaWS
  | connectionFailed
  | maxReconnectAttemptsReached
deriving DecidableEq, Repr

/-- First argument of onStatusChange. -/
inductive WSStatus where
  | connecting
  | connected
  | disconnected
  | error
deriving DecidableEq, Repr

/-- Observable effects of the handler: a status callback or an awaited
backoff delay in milliseconds. -/
inductive WSOutput where
  | status (k : WSStatus) (msg : WSMessage)
  | wait (ms : ℕ)
deriving DecidableEq, Repr

/-- One close event of the active socket: wasClean from the close frame,
and the outcome of the reconnect attempt it may trigger. -/
inductive WSEvent where
  | close (wasClean : Bool) (connectOk : Bool)
deriving DecidableEq, Repr

/-- Mutable fields of WebSocketAudioHandler relevant to reconnection. -/
structure WSAudioHandler where
  reconnectAttempts : ℕ
  maxReconnectAttempts : ℕ
  reconnectDelay : ℕ
deriving DecidableEq, Repr

/-- Field initializers of the class. -/
def wsInit : WSAudioHandler :=
  { reconnectAttempts := 0, maxReconnectAttempts := 5, reconnectDelay := 1000 }

/-- connect(): emits the connecting status, then either succeeds (connected
status, counter reset to 0) or fails (error status, counter kept). -/
def connectStep (h : WSAudioHandler) (ok : Bool) : WSAudioHandler × List WSOutput :=
  if ok then
    ({ h with reconnectAttempts := 0 },
     [.status .connecting .connectingToWS, .status .connected .connectedViaWS])
  else
    (h, [.status .connecting .connectingToWS, .status .error .connectionFailed])

/-- attemptReconnect(): increment the counter, report progress, wait
reconnectDelay * reconnectAttempts, run connect, and report the terminal
error when a failed attempt has reached the maximum. -/
def attemptReconnect (h : WSAudioHandler) (ok : Bool) : WSAudioHandler × List WSOutput :=
  let h1 : WSAudioHandler := { h with reconnectAttempts := h.reconnectAttempts + 1 }
  let pre : List WSOutput :=
    [.status .connecting (.reconnecting h1.reconnectAttempts h1.maxReconnectAttempts),
     .wait (h1.reconnectDelay * h1.reconnectAttempts)]
  let c := connectStep h1 ok
  let post : List WSOutput :=
    if ok then []
    else if h1.maxReconnectAttempts ≤ h1.reconnectAttempts
    then [.status .error .maxReconnectAttemptsReached]
    else []
  (c.1, pre ++ c.2 ++ post)

/-- ws.onclose: always report disconnected; reconnect only on an unclean
close while the counter is below the maximum. -/
def wsStep (h : WSAudioHandler) (e : WSEvent) : WSAudioHandler × List WSOutput :=
  match e with
  | .close wasClean ok =>
      let base : List WSOutput := [.status .disconnected .connectionClosed]
      if ¬wasClean ∧ h.reconnectAttempts < h.maxReconnectAttempts then
        let a := attemptReconnect h ok
        (a.1, base ++ a.2)
      else (h, base)

/-- Run of the handler over a trace of close events, collecting outputs. -/
def wsRun : WSAudioHandler → List WSEvent → WSAudioHandler × List WSOutput
  | h, [] => (h, [])
  | h, e :: es =>
      let p := wsStep h e
      let q := wsRun p.1 es
      (q.1, p.2 ++ q.2)

/-- Whether an output is the terminal maximum-reached error callback. -/
def isMaxErr : WSOutput → Bool
  | .status .error .maxReconnectAttemptsReached => true
  | _ => false

theorem wsStep_const_fields (h : WSAudioHandler) (e : WSEvent) :
    (wsStep h e).1.maxReconnectAttempts = h.maxReconnectAttempts ∧
    (wsStep h e).1.reconnectDelay = h.reconnectDelay := by
  rcases e with ⟨wasClean, ok⟩
  simp only [wsStep, attemptReconnect, connectStep]
  split_ifs <;> simp

theorem wsStep_attempts_le (h : WSAudioHandler) (e : WSEvent)
    (hle : h.reconnectAttempts ≤ h.maxReconnectAttempts) :
    (wsStep h e).1.reconnectAttempts ≤ h.maxReconnectAttempts := by
  rcases e with ⟨wasClean, ok⟩
  simp only [wsStep, attemptReconnect, connectStep]
  split_ifs with h1 h2 <;> simp_all <;> omega

theorem wsRun_attempts_le (es : List WSEvent) (h : WSAudioHandler)
    (hle : h.reconnectAttempts ≤ h.maxReconnectAttempts) :
    (wsRun h es).1.reconnectAttempts ≤ (wsRun h es).1.maxReconnectAttempts ∧
    (wsRun h es).1.maxReconnectAttempts = h.maxReconnectAttempts := by
  induction es generalizing h with
  | nil => exact ⟨hle, rfl⟩
  | cons e es ih =>
      simp only [wsRun]
      obtain ⟨hmax, _⟩ := wsStep_const_fields h e
      obtain ⟨ih1, ih2⟩ := ih (wsStep h e).1
        (by rw [hmax]; exact wsStep_attempts_le h e hle)
      exact ⟨ih1, by rw [ih2, hmax]⟩

theorem isMaxErr_disconnected (m : WSMessage) :
    isMaxErr (.status .disconnected m) = false := rfl

theorem isMaxErr_connecting (m : WSMessage) :
    isMaxErr (.status .connecting m) = false := rfl

theorem isMaxErr_connected (m : WSMessage) :
    isMaxErr (.status .connected m) = false := rfl

theorem isMaxErr_wait (n : ℕ) : isMaxErr (.wait n) = false := rfl

theorem isMaxErr_connectionFailed :
    isMaxErr (.status .error .connectionFailed) = false := rfl

theorem isMaxErr_max :
    isMaxErr (.status .error .maxReconnectAttemptsReached) = true := rfl

theorem wsStep_fail_state (a : ℕ) (hlt : a < 5) :
    (wsStep ⟨a, 5, 1000⟩ (.close false false)).1 =
      (⟨a + 1, 5, 1000⟩ : WSAudioHandler) := by
  simp [wsStep, attemptReconnect, connectStep, hlt]

theorem wsStep_fail_count (a : ℕ) (hlt : a < 5) :
    List.countP isMaxErr (wsStep ⟨a, 5, 1000⟩ (.close false false)).2 =
      if 5 ≤ a + 1 then 1 else 0 := by
  by_cases hc : 5 ≤ a + 1 <;>
    simp [wsStep, attemptReconnect, connectStep, hlt, hc, List.countP_cons,
      List.countP_append, List.countP_nil, isMaxErr_disconnected,
      isMaxErr_connecting, isMaxErr_connected, isMaxErr_wait,
      isMaxErr_connectionFailed, isMaxErr_max]

theorem wsStep_saturated (h : WSAudioHandler) (ok : Bool)
    (heq : h.maxReconnectAttempts ≤ h.reconnectAttempts) :
    wsStep h (.close false ok) =
      (h, [.status .disconnected .connectionClosed]) := by
  have hnot : ¬ h.reconnectAttempts < h.maxReconnectAttempts := not_lt.mpr heq
  simp [wsStep, hnot]

theorem wsRun_fail_count (m : ℕ) : ∀ a : ℕ, a ≤ 5 →
    List.countP isMaxErr
      (wsRun ⟨a, 5, 1000⟩ (List.replicate m (.close false false))).2 =
      if a < 5 ∧ 5 ≤ a + m then 1 else 0 := by
  induction m with
  | zero =>
      intro a ha
      rw [List.replicate_zero, if_neg (by omega)]
      simp [wsRun]
  | succ m ih =>
      intro a ha
      rw [List.replicate_succ]
      simp only [wsRun, List.countP_append]
      by_cases hlt : a < 5
      · rw [wsStep_fail_state a hlt, wsStep_fail_count a hlt, ih (a + 1) hlt]
        split_ifs <;> omega
      · have ha5 : a = 5 := by omega
        subst ha5
        rw [wsStep_saturated ⟨5, 5, 1000⟩ false (le_refl 5)]
        have h5 := ih 5 (le_refl 5)
        rw [if_neg (by omega : ¬((5:ℕ) < 5 ∧ 5 ≤ 5 + m))] at h5
        simp [h5, List.countP_cons, isMaxErr_disconnected,
          if_neg (by omega : ¬((5:ℕ) < 5 ∧ 5 ≤ 5 + (m + 1)))]

/-- C8: the reconnect counter never exceeds the configured maximum of 5;
an unclean close at counter value k-1 < 5 waits the backoff delay
reconnectDelay * k before the k-th attempt; a saturated handler performs
no further reconnect work; and a trace of n >= 5 consecutive failing
unclean closes emits the terminal maximum-reached error exactly once. -/
theorem reconnect_policy :
    (∀ es : List WSEvent, (wsRun wsInit es).1.reconnectAttempts ≤ 5) ∧
    (∀ (h : WSAudioHandler) (ok : Bool),
        h.reconnectAttempts < h.maxReconnectAttempts →
        WSOutput.wait (h.reconnectDelay * (h.reconnectAttempts + 1)) ∈
          (wsStep h (.close false ok)).2) ∧
    (∀ (h : WSAudioHandler) (ok : Bool),
        h.maxReconnectAttempts ≤ h.reconnectAttempts →
        wsStep h (.close false ok) =
          (h, [.status .disconnected .connectionClosed])) ∧
    (∀ n : ℕ, List.countP isMaxErr
        (wsRun wsInit (List.replicate n (.close false false))).2 =
        if 5 ≤ n then 1 else 0) := by
  refine ⟨?_, ?_, fun h ok heq => wsStep_saturated h ok heq, ?_⟩
  · intro es
    obtain ⟨h1, h2⟩ := wsRun_attempts_le es wsInit (by simp [wsInit])
    rw [h2] at h1
    exact h1
  · intro h ok hlt
    cases ok <;> simp [wsStep, attemptReconnect, connectStep, hlt]
  · intro n
    rw [show wsInit = (⟨0, 5, 1000⟩ : WSAudioHandler) from rfl,
      wsRun_fail_count n 0 (by omega)]
    split_ifs <;> omega

/-- C8 witness: the first backoff delay is 1000 ms and a trace of six
failing unclean closes emits the terminal error exactly once. -/
theorem reconnect_policy_witness :
    WSOutput.wait (wsInit.reconnectDelay * (wsInit.reconnectAttempts + 1)) ∈
      (wsStep wsInit (.close false false)).2 ∧
    List.countP isMaxErr
      (wsRun wsInit (List.replicate 6 (.close false false))).2 = 1 := by
  constructor
  · exact reconnect_policy.2.1 wsInit false (by decide)
  · rw [reconnect_policy.2.2.2 6]
    norm_num

/-! ## Realtime WebSocket proxy (server.mjs, wss connection handler)

Per client connection the proxy holds one upstream socket variable,
initially null.  An init message with a valid ek_ token creates the
upstream socket (readyState CONNECTING = 0); the open event moves it to
OPEN = 1; a close event to CLOSED = 3.  Any other client message is
forwarded only when the upstream socket exists and its readyState is 1,
otherwise the client receives a {type: error} message. -/

/-- The openaiWs variable: none before init, afterwards the readyState of
the created upstream socket. -/
structure ProxyState where
  openaiWs : Option ℕ
deriving DecidableEq, Repr

/-- A parsed client message: init with its ephemeral token, or any other
typed message. -/
inductive ClientMsg where
  | init (ephemeralToken : String)
  | other (ty : String)
deriving DecidableEq, Repr

/-- Observable actions of the proxy while handling one event. -/
inductive ProxyAction where
  | sendClient (ty : String)
  | forwardUpstream (ty : String)
  | openUpstream
deriving DecidableEq, Repr

/-- Events interleaved on one proxy connection: client messages and
upstream socket callbacks. -/
inductive ProxyEvent where
  | fromClient (m : ClientMsg)
  | upstreamOpen
  | upstreamMessage (ty : String)
  | upstreamError
  | upstreamClose
deriving DecidableEq, Repr

/-- Model of ephemeralToken.startsWith(ek_) over the character list; it
also rejects the empty token, like the falsiness check before it. -/
def validEkToken (tok : String) : Bool := tok.data.take 3 == ['e', 'k', '_']

/-- The ws message callback: init validates the token (missing or not
starting with ek_ is answered with an error) and dials upstream; any other
message is forwarded only when the upstream readyState is 1. -/
def handleClientMessage (st : ProxyState) (m : ClientMsg) :
    ProxyState × List ProxyAction :=
  match m with
  | .init tok =>
      if validEkToken tok then ({ openaiWs := some 0 }, [.openUpstream])
      else (st, [.sendClient "error"])
  | .other ty =>
      if st.openaiWs = some 1 then (st, [.forwardUpstream ty])
      else (st, [.sendClient "error"])

/-- One step of the proxy on a client or upstream event. -/
def proxyStep (st : ProxyState) (e : ProxyEvent) : ProxyState × List ProxyAction :=
  match e with
  | .fromClient m => handleClientMessage st m
  | .upstreamOpen =>
      match st.openaiWs with
      | some 0 => ({ openaiWs := some 1 }, [.sendClient "connected"])
      | _ => (st, [])
  | .upstreamMessage ty => (st, [.sendClient ty])
  | .upstreamError => (st, [.sendClient "error"])
  | .upstreamClose =>
      match st.openaiWs with
      | some _ => ({ openaiWs := some 3 }, [.sendClient "disconnected"])
      | none => (st, [])

/-- Run of one proxy connection over an event trace, collecting actions. -/
def proxyRun : ProxyState → List ProxyEvent → ProxyState × List ProxyAction
  | st, [] => (st, [])
  | st, e :: es =>
      let p := proxyStep st e
      let q := proxyRun p.1 es
      (q.1, p.2 ++ q.2)

/-- Initial per-connection state: openaiWs is null. -/
def proxyInit : ProxyState := { openaiWs := none }

/-- Whether an event is a client init message. -/
def isInitEvent : ProxyEvent → Bool
  | .fromClient (.init _) => true
  | _ => false

theorem proxyStep_forward_needs_open (st : ProxyState) (e : ProxyEvent)
    (ty : String) (h : ProxyAction.forwardUpstream ty ∈ (proxyStep st e).2) :
    st.openaiWs = some 1 := by
  rcases e with m | _ | ty2 | _ | _
  · rcases m with tok | ty2 <;> simp only [proxyStep, handleClientMessage] at h
    · split_ifs at h <;> simp_all
    · split_ifs at h with h1 <;> simp_all
  · rcases hw : st.openaiWs with _ | n
    · simp [proxyStep, hw] at h
    · cases n with
      | zero => simp [proxyStep, hw] at h
      | succ n1 => simp [proxyStep, hw] at h
  · simp [proxyStep] at h
  · simp [proxyStep] at h
  · rcases hw : st.openaiWs with _ | n <;> simp [proxyStep, hw] at h

theorem proxyStep_no_init_none (st : ProxyState) (e : ProxyEvent)
    (h : st.openaiWs = none) (hni : isInitEvent e = false) :
    (proxyStep st e).1.openaiWs = none ∧
    ∀ ty, ProxyAction.forwardUpstream ty ∉ (proxyStep st e).2 := by
  rcases e with m | _ | ty2 | _ | _
  · rcases m with tok | ty2
    · simp [isInitEvent] at hni
    · simp [proxyStep, handleClientMessage, h]
  · simp [proxyStep, h]
  · simp [proxyStep, h]
  · simp [proxyStep, h]
  · simp [proxyStep, h]

theorem proxyRun_no_init (es : List ProxyEvent) : ∀ st : ProxyState,
    st.openaiWs = none → es.all (fun e => !isInitEvent e) = true →
    (proxyRun st es).1.openaiWs = none ∧
    ∀ ty, ProxyAction.forwardUpstream ty ∉ (proxyRun st es).2 := by
  induction es with
  | nil =>
      intro st h _
      exact ⟨h, by simp [proxyRun]⟩
  | cons e es ih =>
      intro st h hall
      simp only [List.all_cons, Bool.and_eq_true, Bool.not_eq_true'] at hall
      obtain ⟨hni, hrest⟩ := hall
      obtain ⟨hs1, hs2⟩ := proxyStep_no_init_none st e h hni
      simp only [proxyRun]
      obtain ⟨ha, hb⟩ := ih (proxyStep st e).1 hs1 (by simpa using hrest)
      refine ⟨ha, fun ty hmem => ?_⟩
      rw [List.mem_append] at hmem
      rcases hmem with hm | hm
      · exact hs2 ty hm
      · exact hb ty hm

theorem proxyStep_not_open (st : ProxyState) (e : ProxyEvent)
    (h : st.openaiWs ≠ some 1) (hne : e ≠ .upstreamOpen) :
    (proxyStep st e).1.openaiWs ≠ some 1 ∧
    ∀ ty, ProxyAction.forwardUpstream ty ∉ (proxyStep st e).2 := by
  rcases e with m | _ | ty2 | _ | _
  · rcases m with tok | ty2
    · simp only [proxyStep, handleClientMessage]
      split_ifs <;> simp [h]
    · simp only [proxyStep, handleClientMessage]
      rw [if_neg h]
      simp [h]
  · exact absurd rfl hne
  · simp [proxyStep, h]
  · simp [proxyStep, h]
  · rcases hw : st.openaiWs with _ | n
    · simp [proxyStep, hw]
    · simp [proxyStep, hw]

theorem proxyRun_no_open (es : List ProxyEvent) : ∀ st : ProxyState,
    st.openaiWs ≠ some 1 → ProxyEvent.upstreamOpen ∉ es →
    (proxyRun st es).1.openaiWs ≠ some 1 ∧
    ∀ ty, ProxyAction.forwardUpstream ty ∉ (proxyRun st es).2 := by
  induction es with
  | nil =>
      intro st h _
      exact ⟨h, by simp [proxyRun]⟩
  | cons e es ih =>
      intro st h hmem
      rw [List.mem_cons] at hmem
      push_neg at hmem
      obtain ⟨hne, hrest⟩ := hmem
      obtain ⟨hs1, hs2⟩ := proxyStep_not_open st e h (fun he => hne he.symm)
      simp only [proxyRun]
      obtain ⟨ha, hb⟩ := ih (proxyStep st e).1 hs1 hrest
      refine ⟨ha, fun ty hm => ?_⟩
      rw [List.mem_append] at hm
      rcases hm with hm | hm
      · exact hs2 ty hm
      · exact hb ty hm

/-- C9: in every event trace of one proxy connection, nothing is forwarded
upstream unless an init message has been handled and the upstream open
event has fired (traces without init, and traces without upstreamOpen,
forward nothing); a forward can only happen from the open state; and a
client message that cannot be forwarded, or an init with an invalid token,
is answered with an explicit error message. -/
theorem relay_order :
    (∀ es : List ProxyEvent, es.all (fun e => !isInitEvent e) = true →
        ∀ ty, ProxyAction.forwardUpstream ty ∉ (proxyRun proxyInit es).2) ∧
    (∀ es : List ProxyEvent, ProxyEvent.upstreamOpen ∉ es →
        ∀ ty, ProxyAction.forwardUpstream ty ∉ (proxyRun proxyInit es).2) ∧
    (∀ (st : ProxyState) (e : ProxyEvent) (ty : String),
        ProxyAction.forwardUpstream ty ∈ (proxyStep st e).2 →
        st.openaiWs = some 1) ∧
    (∀ (st : ProxyState) (ty : String), st.openaiWs ≠ some 1 →
        proxyStep st (.fromClient (.other ty)) = (st, [.sendClient "error"])) ∧
    (∀ (st : ProxyState) (tok : String), validEkToken tok = false →
        proxyStep st (.fromClient (.init tok)) = (st, [.sendClient "error"])) := by
  refine ⟨?_, ?_, proxyStep_forward_needs_open, ?_, ?_⟩
  · intro es hall ty
    exact (proxyRun_no_init es proxyInit rfl hall).2 ty
  · intro es hmem ty
    exact (proxyRun_no_open es proxyInit (by simp [proxyInit]) hmem).2 ty
  · intro st ty h
    simp [proxyStep, handleClientMessage, h]
  · intro st tok h
    simp [proxyStep, handleClientMessage, h]

/-- C9 witness: before any init, an audio append is answered with an error
and nothing is forwarded upstream. -/
theorem relay_order_witness :
    (∀ ty, ProxyAction.forwardUpstream ty ∉
        (proxyRun proxyInit
          [ProxyEvent.fromClient (.other "input_audio_buffer.append")]).2) ∧
    proxyStep proxyInit (.fromClient (.other "input_audio_buffer.append")) =
      (proxyInit, [.sendClient "error"]) ∧
    proxyStep proxyInit (.fromClient (.init "not-a-token")) =
      (proxyInit, [.sendClient "error"]) :=
  ⟨relay_order.1 [ProxyEvent.fromClient (.other "input_audio_buffer.append")]
      (by decide),
   relay_order.2.2.2.1 proxyInit "input_audio_buffer.append" (by decide),
   relay_order.2.2.2.2 proxyInit "not-a-token" (by decide)⟩

end Voice
